/-
Verification of the spdlog daily_rotating_file_sink and declarative
configuration engine (shallow embedding of the C++ sources in
include/spdlog/sinks/daily_rotating_file_sink.h and the configuration
implementation bundled with it).

Strings are modelled as `List Char`; the filesystem visible to one sink is
modelled per base filename as a list of generation slots (`Disk`), where
slot `n` stands for the file `base.n` (`base` itself at slot 0) and holds
`some content` when that file exists.  File contents are modelled as the
list of message identifiers written into the file.  `size_t` quantities are
modelled as `Nat` (the sizes and counters in play never reach `2^64` in any
scenario the claims quantify over); where `size_t` wrap-around is essential
to the control flow (the `npos` arithmetic in `config_line::parse`) it is
modelled explicitly modulo `2^64`.
-/
import Mathlib

namespace Spdlog

/-- Shorthand: view a string literal as the `List Char` the embedding works on. -/
def str (s : String) : List Char := s.toList

/-- `std::numeric_limits<size_t>::max()`, also `std::string::npos`. -/
def SIZE_MAX : Nat := 2 ^ 64 - 1

/-! ## Rotating file sink: disk model -/

/-- Content of one log file: the identifiers of the messages it holds. -/
abbrev Content := List Nat

/-- The generation chain of one base filename: slot `n` models the file
`base.n` (slot 0 is `base` itself); `some c` means the file exists with
content `c`. -/
abbrev Disk := List (Option Content)

namespace Disk

/-- The file at generation `n` (`none` when absent). -/
def get (d : Disk) (n : Nat) : Option Content := d.getD n none

/-- `details::file_helper::file_exists` for generation `n`. -/
def file_exists (d : Disk) (n : Nat) : Bool := (d.get n).isSome

/-- Write slot `n`, padding the slot list with absent files as needed. -/
def setSlot : Disk → Nat → Option Content → Disk
  | [], 0, v => [v]
  | [], n + 1, v => none :: setSlot [] n v
  | _ :: rest, 0, v => v :: rest
  | x :: rest, n + 1, v => x :: setSlot rest n v

theorem get_setSlot (n : Nat) : ∀ (d : Disk) (v : Option Content) (k : Nat),
    (d.setSlot n v).get k = if k = n then v else d.get k := by
  induction n with
  | zero =>
    intro d v k
    cases d <;> cases k <;> simp [setSlot, get, List.getD]
  | succ n ih =>
    intro d v k
    cases d with
    | nil =>
      cases k with
      | zero => simp [setSlot, get, List.getD]
      | succ k => simpa [setSlot, get, List.getD] using ih [] v k
    | cons x rest =>
      cases k with
      | zero => simp [setSlot, get, List.getD]
      | succ k => simpa [setSlot, get, List.getD] using ih rest v k

/-- `details::os::remove`: fails (returns `none`) when the file is absent. -/
def removeFile (d : Disk) (n : Nat) : Option Disk :=
  if d.file_exists n then some (d.setSlot n none) else none

/-- `details::os::rename src target` (callers guard on `file_exists src`). -/
def renameFile (d : Disk) (src tgt : Nat) : Disk :=
  (d.setSlot tgt (d.get src)).setSlot src none

end Disk

/-- Fuel-driven body of the `while (file_exists(target) && i <= _max_files)`
loop of `_rotate`.  The fuel only serves structural recursion; `buildChain`
instantiates it so that the fuel never runs out before the loop condition
fails. -/
def buildChainFuel : Nat → Disk → Nat → Nat → List (Nat × Nat)
  | 0, _, _, _ => []
  | fuel + 1, d, maxFiles, i =>
      if d.file_exists i ∧ i ≤ maxFiles then
        (i, i + 1) :: buildChainFuel fuel d maxFiles (i + 1)
      else
        []

/-- The probing loop of `_rotate`: starting from probe index `i`, extend the
pending rename list with `(genK, genK+1)` while generation `K` exists on disk
and `K ≤ max_files`. -/
def buildChain (d : Disk) (maxFiles : Nat) (i : Nat) : List (Nat × Nat) :=
  buildChainFuel (maxFiles + 1 - i) d maxFiles i

theorem buildChain_unfold (d : Disk) (m i : Nat) :
    buildChain d m i =
      if d.file_exists i ∧ i ≤ m then (i, i + 1) :: buildChain d m (i + 1)
      else [] := by
  unfold buildChain
  rcases Nat.eq_zero_or_pos (m + 1 - i) with h | h
  · rw [h]
    have hneg : ¬(d.file_exists i = true ∧ i ≤ m) := by
      rintro ⟨-, hle⟩
      omega
    simp only [buildChainFuel]
    rw [if_neg hneg]
  · obtain ⟨f, hf⟩ : ∃ f, m + 1 - i = f + 1 := ⟨m - i, by omega⟩
    rw [hf]
    simp only [buildChainFuel]
    have hf2 : m + 1 - (i + 1) = f := by omega
    rw [hf2]

/-- The full pending rename list of `_rotate`: `(gen0, gen1)` followed by the
chain probed from generation 1. -/
def renameList (d : Disk) (maxFiles : Nat) : List (Nat × Nat) :=
  (0, 1) :: buildChain d maxFiles 1

/-- The removal loop of `_rotate` over the entries beyond the retention
bound: delete each source file, failing on a failed deletion. -/
def removeAll (d : Disk) (ps : List (Nat × Nat)) : Option Disk :=
  ps.foldlM (fun dd p => dd.removeFile p.1) d

/-- The rename loop of `_rotate`: for each `(src, target)` pair in order,
rename `src` to `target` when `src` exists, skipping silently otherwise. -/
def applyRenames (d : Disk) (ps : List (Nat × Nat)) : Disk :=
  ps.foldl (fun dd p => if dd.file_exists p.1 then dd.renameFile p.1 p.2 else dd) d

/-- `daily_rotating_file_sink::_rotate`, acting on the generation chain of the
current base filename: build the pending rename list, truncate it to at most
`max_files` entries deleting the sources of the surplus entries (a failed
deletion aborts with `none`), apply the kept pairs in reverse order renaming
`src` to `target` only when `src` exists, then reopen generation 0 in
truncate mode. -/
def rotate (d : Disk) (maxFiles : Nat) : Option Disk :=
  let files := renameList d maxFiles
  let keep := min files.length maxFiles
  match removeAll d (files.drop keep) with
  | none => none
  | some d1 => some ((applyRenames d1 (files.take keep).reverse).setSlot 0 (some []))

/-- Size of the truncated rename list: the number of generations shifted up
by one during a size-triggered rotation. -/
def keepCount (d : Disk) (maxFiles : Nat) : Nat :=
  min (renameList d maxFiles).length maxFiles

/-- Shape and side conditions of the probing loop: the pending chain from
probe index `i` is the consecutive pairs `(j, j+1)` for `j` in a range
starting at `i`, and every probed generation in that range exists on disk and
respects the retention bound. -/
theorem buildChain_shape (d : Disk) (m : Nat) :
    ∀ t i, m + 1 - i ≤ t →
      buildChain d m i =
        (List.range' i (buildChain d m i).length).map (fun j => (j, j + 1)) ∧
      (∀ j, i ≤ j → j < i + (buildChain d m i).length →
        d.file_exists j = true ∧ j ≤ m) := by
  intro t
  induction t with
  | zero =>
    intro i hi
    have hneg : ¬(d.file_exists i = true ∧ i ≤ m) := by
      rintro ⟨-, hle⟩
      omega
    rw [buildChain_unfold, if_neg hneg]
    constructor
    · simp
    · intro j h1 h2
      simp only [List.length_nil] at h2
      omega
  | succ t ih =>
    intro i hi
    by_cases hcond : d.file_exists i = true ∧ i ≤ m
    · have hrec := ih (i + 1) (by omega)
      rw [buildChain_unfold, if_pos hcond]
      constructor
      · simp only [List.length_cons, List.range'_succ, List.map_cons]
        rw [← hrec.1]
      · intro j h1 h2
        rcases Nat.eq_or_lt_of_le h1 with rfl | hgt
        · exact hcond
        · refine hrec.2 j hgt ?_
          simp only [List.length_cons] at h2
          omega
    · rw [buildChain_unfold, if_neg hcond]
      constructor
      · simp
      · intro j h1 h2
        simp only [List.length_nil] at h2
        omega

/-- Applying the reversed consecutive rename list `(0,1) … (n-1,n)` to a disk
whose generations `0 … n-1` all exist shifts every generation up by one,
leaves generation 0 absent (for a non-empty list), and leaves all higher
generations untouched. -/
theorem applyRenames_shift (n : Nat) :
    ∀ d : Disk, (∀ j, j < n → d.file_exists j = true) →
      (∀ t, 1 ≤ t → t ≤ n →
        (applyRenames d ((List.range' 0 n).map (fun j => (j, j + 1))).reverse).get t
          = d.get (t - 1)) ∧
      (n ≠ 0 →
        (applyRenames d ((List.range' 0 n).map (fun j => (j, j + 1))).reverse).get 0
          = none) ∧
      (∀ t, n < t →
        (applyRenames d ((List.range' 0 n).map (fun j => (j, j + 1))).reverse).get t
          = d.get t) := by
  induction n with
  | zero =>
    intro d _
    refine ⟨?_, ?_, ?_⟩
    · intro t h1 h2
      omega
    · intro h
      exact absurd rfl h
    · intro t _
      simp [applyRenames]
  | succ n ih =>
    intro d hex
    have hrange : List.range' 0 (n + 1) = List.range' 0 n ++ [n] := by
      simpa using List.range'_1_concat 0 n
    have hx : d.file_exists n = true := hex n (Nat.lt_succ_self n)
    set d1 := d.renameFile n (n + 1) with hd1
    have hget1 : ∀ k, d1.get k =
        if k = n then none else if k = n + 1 then d.get n else d.get k := by
      intro k
      rw [hd1]
      unfold Disk.renameFile
      rw [Disk.get_setSlot, Disk.get_setSlot]
    have hstep : applyRenames d ((List.range' 0 (n + 1)).map (fun j => (j, j + 1))).reverse
        = applyRenames d1 ((List.range' 0 n).map (fun j => (j, j + 1))).reverse := by
      rw [hrange]
      simp only [List.map_append, List.reverse_append, List.map_cons, List.map_nil,
        List.reverse_cons, List.reverse_nil, List.nil_append, List.cons_append,
        List.nil_append]
      unfold applyRenames
      rw [List.foldl_cons]
      simp only [hx, if_true]
    have hex1 : ∀ j, j < n → d1.file_exists j = true := by
      intro j hj
      unfold Disk.file_exists
      rw [hget1]
      have h1 : ¬(j = n) := by omega
      have h2 : ¬(j = n + 1) := by omega
      rw [if_neg h1, if_neg h2]
      exact hex j (by omega)
    obtain ⟨ha, hb, hc⟩ := ih d1 hex1
    refine ⟨?_, ?_, ?_⟩
    · intro t h1 h2
      rw [hstep]
      rcases Nat.lt_or_ge t (n + 1) with hlt | hge
      · rw [ha t h1 (by omega), hget1]
        have hn1 : ¬(t - 1 = n) := by omega
        have hn2 : ¬(t - 1 = n + 1) := by omega
        rw [if_neg hn1, if_neg hn2]
      · have ht : t = n + 1 := by omega
        subst ht
        rw [hc (n + 1) (by omega), hget1]
        simp
    · intro _
      rw [hstep]
      rcases Nat.eq_zero_or_pos n with rfl | hpos
      · have : applyRenames d1 ((List.range' 0 0).map (fun j => (j, j + 1))).reverse = d1 := by
          simp [applyRenames]
        rw [this, hget1]
        simp
      · exact hb (by omega)
    · intro t ht
      rw [hstep, hc t (by omega), hget1]
      have h1 : ¬(t = n) := by omega
      have h2 : ¬(t = n + 1) := by omega
      rw [if_neg h1, if_neg h2]

/-- Characterization of `_rotate` on a disk whose generation 0 (the active
file) exists: the rotation succeeds, the reopened generation 0 is empty, the
first `keepCount` generations are shifted up by one, and every generation
above that is untouched. -/
theorem rotate_char (d : Disk) (m : Nat) (h0 : d.file_exists 0 = true) :
    ∃ d', rotate d m = some d' ∧
      d'.get 0 = some [] ∧
      (∀ j, 1 ≤ j → j ≤ keepCount d m → d'.get j = d.get (j - 1)) ∧
      (∀ n, keepCount d m < n → d'.get n = d.get n) := by
  obtain ⟨hshape, hex⟩ := buildChain_shape d m (m + 1) 1 (by omega)
  set c := (buildChain d m 1).length with hc
  have hfiles : renameList d m = (List.range' 0 (c + 1)).map (fun j => (j, j + 1)) := by
    unfold renameList
    rw [List.range'_succ, List.map_cons, ← hshape]
  have hlen : (renameList d m).length = c + 1 := by
    rw [hfiles]
    simp
  have hcle : c ≤ m := by
    rcases Nat.eq_zero_or_pos c with h | h
    · omega
    · exact (hex c (by omega) (by omega)).2
  have hexlt : ∀ j, j < c + 1 → d.file_exists j = true := by
    intro j hj
    rcases Nat.eq_zero_or_pos j with rfl | hp
    · exact h0
    · exact (hex j hp (by omega)).1
  have hkeep : keepCount d m = min (c + 1) m := by
    unfold keepCount
    rw [hlen]
  have hrot : rotate d m =
      match removeAll d ((renameList d m).drop (min (renameList d m).length m)) with
      | none => none
      | some d1 =>
          some ((applyRenames d1
            ((renameList d m).take (min (renameList d m).length m)).reverse).setSlot 0
            (some [])) := rfl
  rcases Nat.lt_or_ge c m with hcm | hcm
  · -- chain shorter than the bound: nothing is deleted, every pair is applied
    have hmin : min (c + 1) m = c + 1 := Nat.min_eq_left (by omega)
    have hdrop : (renameList d m).drop (min (renameList d m).length m) = [] := by
      rw [hlen, hmin, ← hlen]
      exact List.drop_length _
    have htake : (renameList d m).take (min (renameList d m).length m) = renameList d m := by
      rw [hlen, hmin, ← hlen]
      exact List.take_length _
    obtain ⟨ha, _, hcgt⟩ := applyRenames_shift (c + 1) d hexlt
    refine ⟨(applyRenames d (renameList d m).reverse).setSlot 0 (some []), ?_, ?_, ?_, ?_⟩
    · rw [hrot, hdrop, htake]
      rfl
    · rw [Disk.get_setSlot, if_pos rfl]
    · intro j hj1 hj2
      rw [hkeep, hmin] at hj2
      rw [Disk.get_setSlot, if_neg (by omega : ¬(j = 0)), hfiles]
      exact ha j hj1 hj2
    · intro n hn
      rw [hkeep, hmin] at hn
      rw [Disk.get_setSlot, if_neg (by omega : ¬(n = 0)), hfiles]
      exact hcgt n hn
  · -- chain hit the bound: `c = m`, the surplus entry `(m, m+1)` is deleted
    have hcm' : c = m := by omega
    have hmin : min (c + 1) m = m := by omega
    have hsplit : renameList d m =
        (List.range' 0 m).map (fun j => (j, j + 1)) ++ [(m, m + 1)] := by
      rw [hfiles, hcm']
      have hr : List.range' 0 (m + 1) = List.range' 0 m ++ [m] := by
        simpa using List.range'_1_concat 0 m
      rw [hr, List.map_append]
      rfl
    have hlenA : ((List.range' 0 m).map (fun j => (j, j + 1))).length = m := by simp
    have hdrop : (renameList d m).drop (min (renameList d m).length m) = [(m, m + 1)] := by
      rw [hlen, hmin, hsplit]
      exact List.drop_left' hlenA
    have htake : (renameList d m).take (min (renameList d m).length m) =
        (List.range' 0 m).map (fun j => (j, j + 1)) := by
      rw [hlen, hmin, hsplit]
      exact List.take_left' hlenA
    have hremove : removeAll d [(m, m + 1)] = some (d.setSlot m none) := by
      unfold removeAll Disk.removeFile
      simp [hexlt m (by omega)]
    have hget1 : ∀ k, k ≠ m → (d.setSlot m none).get k = d.get k := by
      intro k hk
      rw [Disk.get_setSlot, if_neg hk]
    have hex1 : ∀ j, j < m → (d.setSlot m none).file_exists j = true := by
      intro j hj
      unfold Disk.file_exists
      rw [hget1 j (by omega)]
      exact hexlt j (by omega)
    obtain ⟨ha, _, hcgt⟩ := applyRenames_shift m (d.setSlot m none) hex1
    refine ⟨(applyRenames (d.setSlot m none)
      ((List.range' 0 m).map (fun j => (j, j + 1))).reverse).setSlot 0
      (some []), ?_, ?_, ?_, ?_⟩
    · rw [hrot, hdrop, hremove, htake]
    · rw [Disk.get_setSlot, if_pos rfl]
    · intro j hj1 hj2
      rw [hkeep, hmin] at hj2
      rw [Disk.get_setSlot, if_neg (by omega : ¬(j = 0))]
      rw [ha j hj1 hj2, hget1 (j - 1) (by omega)]
    · intro n hn
      rw [hkeep, hmin] at hn
      rw [Disk.get_setSlot, if_neg (by omega : ¬(n = 0))]
      rw [hcgt n hn, hget1 n (by omega)]

/-! ## Rotating file sink: append state machine -/

/-- `file_helper::write`: append a formatted message to the open
generation-0 file of the current base filename. -/
def Disk.writeMsg (d : Disk) (msg : Nat) : Disk :=
  d.setSlot 0 (some ((d.get 0).getD [] ++ [msg]))

/-- The retention scenario of the spec: five size-triggered rotations with
`max_files = 3`, starting from an active file holding message `0`, each
rotation followed by the write of the triggering message `1 … 5`. -/
def rotateScenario : Option Disk :=
  [1, 2, 3, 4, 5].foldlM (fun d k => (rotate d 3).map (fun d2 => d2.writeMsg k))
    [some [0]]

/-- The filesystem seen by one sink across base filenames: an association
from base filename to that base's generation chain. -/
abbrev FileSystem := List (List Char × Disk)

namespace FileSystem

/-- The generation chain of base filename `b` (empty when no file of that
base exists). -/
def getDisk (fs : FileSystem) (b : List Char) : Disk := (fs.lookup b).getD []

/-- Replace the generation chain of base filename `b`. -/
def setDisk : FileSystem → List Char → Disk → FileSystem
  | [], b, d => [(b, d)]
  | (b', d') :: rest, b, d =>
      if b' = b then (b, d) :: rest else (b', d') :: setDisk rest b d

theorem getDisk_setDisk (fs : FileSystem) (b : List Char) (d : Disk) (b' : List Char) :
    (fs.setDisk b d).getDisk b' = if b' = b then d else fs.getDisk b' := by
  induction fs with
  | nil =>
    by_cases h : b' = b
    · simp [setDisk, getDisk, List.lookup, h]
    · have h1 : (b' == b) = false := beq_eq_false_iff_ne.mpr h
      simp [setDisk, getDisk, List.lookup, h, h1]
  | cons p rest ih =>
    obtain ⟨pb, pd⟩ := p
    by_cases hp : pb = b
    · subst hp
      by_cases h : b' = pb
      · simp [setDisk, getDisk, List.lookup, h]
      · have h1 : (b' == pb) = false := beq_eq_false_iff_ne.mpr h
        simp [setDisk, getDisk, List.lookup, h, h1]
    · have hsd : setDisk ((pb, pd) :: rest) b d = (pb, pd) :: setDisk rest b d := by
        simp [setDisk, hp]
      by_cases h : b' = pb
      · subst h
        have hne : ¬b' = b := hp
        simp [hsd, getDisk, List.lookup, hne]
      · have h1 : (b' == pb) = false := beq_eq_false_iff_ne.mpr h
        simp only [hsd, getDisk, List.lookup, h1]
        exact ih

/-- `file_helper::open` in the default append mode: create the file when it
is absent, keep its content otherwise. -/
def openAppend (fs : FileSystem) (b : List Char) : FileSystem :=
  if (fs.getDisk b).file_exists 0 then fs
  else fs.setDisk b ((fs.getDisk b).setSlot 0 (some []))

end FileSystem

/-- The mutable rotation state of `daily_rotating_file_sink` (the open file
handle lives in the filesystem model, keyed by `currentBaseFilename`). -/
structure RotState where
  baseFilename : List Char
  currentBaseFilename : List Char
  maxSize : Nat
  maxFiles : Nat
  currentSize : Nat
  rotationTp : Nat
deriving DecidableEq

/-- `daily_rotating_file_sink::_sink_it`:  add the formatted length `L` to
the running size; when the deadline has passed, switch to the recomputed
base filename (`calcFn now`), open it in append mode, recompute the deadline
(`nextTp now`) and reset the size to `L`; otherwise, when the accumulated
size exceeds `max_size`, run the generation-shift rotation and reset the
size to `L`; in every case, finally write the message to the open file. -/
def sink_it (calcFn : Nat → List Char) (nextTp : Nat → Nat) (now : Nat)
    (msg L : Nat) (s : RotState) (fs : FileSystem) :
    Option (RotState × FileSystem) :=
  let size1 := s.currentSize + L
  if s.rotationTp ≤ now then
    let newBase := calcFn now
    let fs1 := fs.openAppend newBase
    let s1 := { s with currentBaseFilename := newBase,
                       rotationTp := nextTp now, currentSize := L }
    some (s1, fs1.setDisk newBase ((fs1.getDisk newBase).writeMsg msg))
  else if s.maxSize < size1 then
    match rotate (fs.getDisk s.currentBaseFilename) s.maxFiles with
    | none => none
    | some d2 =>
        let s1 := { s with currentSize := L }
        some (s1, fs.setDisk s.currentBaseFilename (d2.writeMsg msg))
  else
    let s1 := { s with currentSize := size1 }
    some (s1, fs.setDisk s.currentBaseFilename
      ((fs.getDisk s.currentBaseFilename).writeMsg msg))

/-- `daily_rotating_file_sink::_next_rotation_tp` over a simple civil-time
model: times are seconds, a day is 86400 seconds, `localtime`/`mktime`
convert between a timestamp and its (day, hour, minute, second) fields.  The
target is today's `rotation_hour:rotation_minute:00`; if that is not in the
future, one configured period (`rotation_period_hours` hours plus
`rotation_period_minutes` minutes) is added. -/
def next_rotation_tp (rh rm ph pm now : Nat) : Nat :=
  let rt := (now / 86400) * 86400 + rh * 3600 + rm * 60
  if now < rt then rt else rt + ph * 3600 + pm * 60

/-! ## detail::utilities: CSV parser and tokenizer -/

/-- Fuel-driven body of the character loop of
`detail::utilities::parse_csv` (the fuel mirrors the input length exactly,
so the fuel-exhaustion branches are unreachable; `csvLoop` instantiates
it). -/
def csvLoopF (max : Nat) :
    Nat → List Char → Bool → List Char → Nat → List (List Char) →
    Except (List Char) (List (List Char) × List Char × List Char × Nat)
  | fuel, cs, inQ, tok, count, acc =>
    if count ≥ max then .ok (acc, tok, cs, count)
    else
      match fuel, cs with
      | _, [] => .ok (acc, tok, [], count)
      | 0, c :: rest => .ok (acc, tok, c :: rest, count)
      | f + 1, c :: rest =>
        if c = '"' then
          if inQ then
            match f, rest with
            | _, [] => .ok (acc ++ [tok], [], [], count + 1)
            | 0, c2 :: rest2 => .ok (acc, tok, c2 :: rest2, count)
            | f2 + 1, c2 :: rest2 =>
                if c2 = '"' then csvLoopF max f2 rest2 inQ (tok ++ ['"']) count acc
                else if c2 = ',' then
                  csvLoopF max (f2 + 1) (c2 :: rest2) false tok count acc
                else .error (str "Malformed string passed to csv parser: " ++ (c :: rest))
          else csvLoopF max f rest true tok count acc
        else if c = ',' then
          if inQ then csvLoopF max f rest inQ (tok ++ [',']) count acc
          else csvLoopF max f rest inQ [] (count + 1) (acc ++ [tok])
        else csvLoopF max f rest inQ (tok ++ [c]) count acc

/-- One pass of the character loop of `detail::utilities::parse_csv`,
returning the accumulator, pending token, unread remainder and field count
at loop exit (the loop stops at the end of the input or once `count`
reaches `max`). -/
def csvLoop (max : Nat) (cs : List Char) (inQ : Bool) (tok : List Char)
    (count : Nat) (acc : List (List Char)) :
    Except (List Char) (List (List Char) × List Char × List Char × Nat) :=
  csvLoopF max cs.length cs inQ tok count acc

/-- One-step unfolding of the character loop, phrased directly on the input
string. -/
theorem csvLoop_step (max : Nat) (cs : List Char) (inQ : Bool)
    (tok : List Char) (count : Nat) (acc : List (List Char)) :
    csvLoop max cs inQ tok count acc =
      (if count ≥ max then .ok (acc, tok, cs, count)
       else
        match cs with
        | [] => .ok (acc, tok, [], count)
        | c :: rest =>
          if c = '"' then
            if inQ then
              match rest with
              | [] => .ok (acc ++ [tok], [], [], count + 1)
              | c2 :: rest2 =>
                  if c2 = '"' then csvLoop max rest2 inQ (tok ++ ['"']) count acc
                  else if c2 = ',' then
                    csvLoop max (c2 :: rest2) false tok count acc
                  else .error (str "Malformed string passed to csv parser: " ++ cs)
            else csvLoop max rest true tok count acc
          else if c = ',' then
            if inQ then csvLoop max rest inQ (tok ++ [',']) count acc
            else csvLoop max rest inQ [] (count + 1) (acc ++ [tok])
          else csvLoop max rest inQ (tok ++ [c]) count acc) := by
  cases cs with
  | nil => rfl
  | cons c rest =>
    cases rest with
    | nil => rfl
    | cons c2 rest2 => rfl

/-- One-step unfolding of the character loop on a non-empty input, with
every branch condition exposed syntactically. -/
theorem csvLoop_cons (max : Nat) (c : Char) (rest : List Char) (inQ : Bool)
    (tok : List Char) (count : Nat) (acc : List (List Char)) :
    csvLoop max (c :: rest) inQ tok count acc =
      (if count ≥ max then .ok (acc, tok, c :: rest, count)
       else if c = '"' then
        (if inQ then
          (match rest with
           | [] => .ok (acc ++ [tok], [], [], count + 1)
           | c2 :: rest2 =>
               if c2 = '"' then csvLoop max rest2 inQ (tok ++ ['"']) count acc
               else if c2 = ',' then
                 csvLoop max (c2 :: rest2) false tok count acc
               else .error (str "Malformed string passed to csv parser: " ++
                 (c :: rest)))
         else csvLoop max rest true tok count acc)
       else if c = ',' then
        (if inQ then csvLoop max rest inQ (tok ++ [',']) count acc
         else csvLoop max rest inQ [] (count + 1) (acc ++ [tok]))
       else csvLoop max rest inQ (tok ++ [c]) count acc) := by
  cases rest with
  | nil => rfl
  | cons c2 rest2 => rfl

/-- `detail::utilities::parse_csv`: split a CSV string into fields honoring
double-quote escaping, with at most `max` separator-driven splits; after the
loop, a non-empty pending token is appended, and then the unread remainder
is appended verbatim as a final field. -/
def parse_csv (csv : List Char) (max : Nat := SIZE_MAX) :
    Except (List Char) (List (List Char)) :=
  match csvLoop max csv false [] 0 [] with
  | .error e => .error e
  | .ok (acc, tok, rem, count) =>
      let acc1 := if tok ≠ [] then acc ++ [tok] else acc
      .ok (if rem ≠ [] ∧ count < SIZE_MAX then acc1 ++ [rem] else acc1)

/-- Split off the text before the first delimiter occurrence;
`some remainder` when a delimiter was found. -/
def splitFirst (delims : List Char) : List Char → List Char × Option (List Char)
  | [] => ([], none)
  | c :: cs =>
      if c ∈ delims then ([], some cs)
      else
        let r := splitFirst delims cs
        (c :: r.1, r.2)

theorem splitFirst_length (delims : List Char) :
    ∀ (cs after : List Char), (splitFirst delims cs).2 = some after →
      after.length < cs.length := by
  intro cs
  induction cs with
  | nil =>
    intro after h
    simp [splitFirst] at h
  | cons c cs ih =>
    intro after h
    by_cases hc : c ∈ delims
    · simp only [splitFirst, if_pos hc] at h
      cases h
      simp
    · simp only [splitFirst, if_neg hc] at h
      have := ih after h
      simp only [List.length_cons]
      omega

/-- The `while` loop of `detail::utilities::tokenize`, fuel-driven (the
fuel bounds the remainder length, and `splitFirst` strictly shrinks the
remainder — `splitFirst_length` — so the fuel-exhaustion branch is
unreachable from `tokenize`): emit the text before each delimiter; once
`count` reaches `max` the unconsumed remainder is emitted whole (unless
`count` equals `npos`); when no delimiter remains the final piece is
emitted and nothing else. -/
def tokGoF (delims : List Char) (max : Nat) :
    Nat → Nat → List Char → List (List Char)
  | fuel, count, rest =>
    if count ≥ max then (if count ≠ SIZE_MAX then [rest] else [])
    else
      match (splitFirst delims rest).2, fuel with
      | none, _ => [(splitFirst delims rest).1]
      | some _, 0 => []
      | some after, f + 1 =>
          (splitFirst delims rest).1 :: tokGoF delims max f (count + 1) after

/-- `detail::utilities::tokenize`: split on any of the delimiter characters,
with at most `max` splits, the remainder folded into a final field; the
empty input yields no fields. -/
def tokenize (input : List Char) (delims : List Char) (max : Nat := SIZE_MAX) :
    List (List Char) :=
  if input = [] then [] else tokGoF delims max input.length 0 input

/-! ## configuration::config_line -/

/-- `std::string::find` of a single character: index or `npos`. -/
def strFind (s : List Char) (c : Char) : Nat :=
  match s.findIdx? (· = c) with
  | some i => i
  | none => SIZE_MAX

/-- `std::string::rfind` of a single character: last index or `npos`. -/
def strRFind (s : List Char) (c : Char) : Nat :=
  match s.reverse.findIdx? (· = c) with
  | some i => s.length - 1 - i
  | none => SIZE_MAX

/-- `std::string::substr(pos, count)` (count clamped at the end). -/
def substr (s : List Char) (pos count : Nat) : List Char := (s.drop pos).take count

/-- `2^64`: the modulus of `size_t` arithmetic. -/
def USIZE : Nat := 2 ^ 64

/-- A parsed `value,[k=v,...]` directive line. -/
structure ConfigLine where
  value : List Char
  attributes : List (List Char × List Char)
deriving DecidableEq

/-- `std::map::insert`: keeps the first binding on a duplicate key. -/
def mapInsert (m : List (List Char × List Char)) (k v : List Char) :
    List (List Char × List Char) :=
  if (m.lookup k).isSome then m else m ++ [(k, v)]

/-- The token handling of `configuration::config_line::parse`: fail on an
empty line or more than two fields; when an attribute section is present,
parse the text between the first `[` and the last `]` (located with size_t
`npos` arithmetic) as a CSV of `k=v` attributes. -/
def config_line_core (tokens : List (List Char)) : Except (List Char) ConfigLine :=
  if tokens.length = 0 then .error (str "Empty config line found")
  else if tokens.length > 2 then .error (str "Invalid config line found")
  else if tokens.length = 2 then
    let tok := tokens.getLastD []
    let start := strFind tok '['
    let stop := strRFind tok ']'
    let attrStr := substr tok ((start + 1) % USIZE)
      ((stop + USIZE - (start + 1) % USIZE) % USIZE)
    match parse_csv attrStr with
    | .error e => .error e
    | .ok attrTokens =>
        attrTokens.foldlM (fun (cl : ConfigLine) at_ =>
          let kv := tokenize at_ ['=']
          if kv.length ≠ 2 then
            .error (str "Invalid attribute definition found: " ++ at_)
          else
            .ok { cl with
              attributes := mapInsert cl.attributes (kv.headD []) (kv.getLastD []) })
          { value := tokens.headD [], attributes := [] }
  else .ok { value := tokens.headD [], attributes := [] }

/-- `configuration::config_line::parse`, assembled from the initial
`max = 1` CSV split and the token handling above. -/
def config_line_parse (config : List Char) : Except (List Char) ConfigLine :=
  match parse_csv config 1 with
  | .error e => .error e
  | .ok tokens => config_line_core tokens

/-! ## detail::utilities: severity-name lookup -/

/-- `spdlog::level::level_enum`. -/
inductive LogLevel
  | trace
  | debug
  | info
  | warn
  | err
  | critical
  | off
deriving DecidableEq

/-- `detail::utilities::ItemMap`: recognized severity names. -/
def ItemMap : List (List Char × LogLevel) :=
  [(str "TRACE", .trace), (str "DEBUG", .debug), (str "INFO", .info),
   (str "WARNINGS", .warn), (str "ERROR", .err), (str "FATAL", .critical),
   (str "OFF", .off)]

/-- `detail::utilities::find_log_level`: scan `ItemMap` from index
`range - 1` downwards comparing with `strcmp`; at range 0 fall back to
`info`. -/
def find_log_level (key : List Char) : Nat → LogLevel
  | 0 => .info
  | r + 1 =>
      if (ItemMap.getD r ([], .info)).1 = key then (ItemMap.getD r ([], .info)).2
      else find_log_level key r

/-! ## detail::attributes -/

/-- The attribute map of a directive (`std::map<std::string, std::string>`,
exact case-sensitive keys). -/
abbrev AttrMap := List (List Char × List Char)

/-- `get_attribute<std::string>`: required lookup, failing when absent. -/
def get_attribute_string (name : List Char) (attributes : AttrMap) :
    Except (List Char) (List Char) :=
  match attributes.lookup name with
  | none => .error (str "Attribute " ++ name ++ str " is required but cannot be found")
  | some v => .ok v

/-- Equality of strings under per-character `tolower` (the equivalence
induced by `caseless_less_than`). -/
def lowerEq (s t : List Char) : Bool := s.map Char.toLower == t.map Char.toLower

/-- `detail::attributes::TRUE_SET` (matched case-insensitively). -/
def TRUE_SET : List (List Char) := [str "1", str "True", str "T", str "Yes", str "Y"]

/-- `detail::attributes::FALSE_SET` (matched case-insensitively). -/
def FALSE_SET : List (List Char) := [str "0", str "False", str "F", str "No", str "N"]

/-- `get_attribute<bool>`: the raw value must belong to the case-insensitive
true/false token sets. -/
def get_attribute_bool (name : List Char) (attributes : AttrMap) :
    Except (List Char) Bool :=
  match get_attribute_string name attributes with
  | .error e => .error e
  | .ok v =>
      if TRUE_SET.any (lowerEq v) then .ok true
      else if FALSE_SET.any (lowerEq v) then .ok false
      else .error (str "Attribute " ++ name ++ str " is not a valid boolean")

/-- Value of a digit string. -/
def digitsToNat (ds : List Char) : Nat :=
  ds.foldl (fun a c => a * 10 + (c.toNat - 48)) 0

/-- `std::stoi`: skip whitespace, read an optional sign and then leading
digits; no digits is an `invalid_argument` failure (overflow is not
modelled). -/
def stoiModel (s : List Char) : Except Unit Int :=
  let s1 := s.dropWhile Char.isWhitespace
  let signed : Int × List Char :=
    match s1 with
    | '-' :: r => (-1, r)
    | '+' :: r => (1, r)
    | r => (1, r)
  let ds := signed.2.takeWhile Char.isDigit
  if ds = [] then .error () else .ok (signed.1 * (digitsToNat ds : Int))

/-- `get_attribute<int>`: numeric parse of the raw value, failing with the
not-a-valid-integer message on an `invalid_argument`. -/
def get_attribute_int (name : List Char) (attributes : AttrMap) :
    Except (List Char) Int :=
  match get_attribute_string name attributes with
  | .error e => .error e
  | .ok v =>
      match stoiModel v with
      | .error _ => .error (str "Attribute " ++ name ++ str " is not a valid integer")
      | .ok n => .ok n

/-- `get_attribute_default<std::string>`: any failure of the required
accessor yields the default. -/
def get_attribute_default_string (name : List Char) (attributes : AttrMap)
    (dflt : List Char) : List Char :=
  match get_attribute_string name attributes with
  | .error _ => dflt
  | .ok v => v

/-- `get_attribute_default<bool>`: any failure of the required accessor
(absence or an invalid boolean token) yields the default. -/
def get_attribute_default_bool (name : List Char) (attributes : AttrMap)
    (dflt : Bool) : Bool :=
  match get_attribute_bool name attributes with
  | .error _ => dflt
  | .ok v => v

/-- `get_attribute_default<int>`: any failure of the required accessor
(absence or an invalid numeric string) yields the default. -/
def get_attribute_default_int (name : List Char) (attributes : AttrMap)
    (dflt : Int) : Int :=
  match get_attribute_int name attributes with
  | .error _ => dflt
  | .ok v => v

/-! ## configuration: directives, builder, executor -/

/-- `configuration::global_config`. -/
structure global_config where
  value : List Char
  attributes : AttrMap
deriving DecidableEq

/-- `configuration::sink_config`. -/
structure sink_config where
  type : List Char
  attributes : AttrMap
deriving DecidableEq

/-- `configuration::logger_config`. -/
structure logger_config where
  threshold : List Char
  sinks : List (List Char)
  attributes : AttrMap
deriving DecidableEq

/-- The `global_config(const std::string&)` constructor: parse the directive
line; value and attributes carry over. -/
def global_config.ofLine (config : List Char) : Except (List Char) global_config :=
  match config_line_parse config with
  | .error e => .error e
  | .ok l => .ok { value := l.value, attributes := l.attributes }

/-- The `sink_config(const std::string&)` constructor: parse the directive
line; the value is the sink type. -/
def sink_config.ofLine (config : List Char) : Except (List Char) sink_config :=
  match config_line_parse config with
  | .error e => .error e
  | .ok l => .ok { type := l.value, attributes := l.attributes }

/-- The `logger_config(const std::string&)` constructor: parse the directive
line, require the `sinks` attribute and split it on `:`; the value is the
severity threshold. -/
def logger_config.ofLine (config : List Char) : Except (List Char) logger_config :=
  match config_line_parse config with
  | .error e => .error e
  | .ok l =>
      match get_attribute_string (str "sinks") l.attributes with
      | .error e => .error e
      | .ok a => .ok { threshold := l.value, sinks := tokenize a [':'],
                       attributes := l.attributes }

/-- `spdlog::configuration`: the three directive mappings. -/
structure Configuration where
  m_globals : List (List Char × global_config)
  m_sinks : List (List Char × sink_config)
  m_loggers : List (List Char × logger_config)
deriving DecidableEq

/-- The default-constructed `configuration`. -/
def Configuration.empty : Configuration := ⟨[], [], []⟩

/-- `configuration::add_global` (`std::map::emplace`: a duplicate name
leaves the stored directive unchanged). -/
def Configuration.add_global (c : Configuration) (name : List Char)
    (g : global_config) : Configuration :=
  if (c.m_globals.lookup name).isSome then c
  else { c with m_globals := c.m_globals ++ [(name, g)] }

/-- `configuration::add_sink` (`std::map::emplace`). -/
def Configuration.add_sink (c : Configuration) (name : List Char)
    (s : sink_config) : Configuration :=
  if (c.m_sinks.lookup name).isSome then c
  else { c with m_sinks := c.m_sinks ++ [(name, s)] }

/-- `configuration::add_logger` (`std::map::emplace`). -/
def Configuration.add_logger (c : Configuration) (name : List Char)
    (l : logger_config) : Configuration :=
  if (c.m_loggers.lookup name).isSome then c
  else { c with m_loggers := c.m_loggers ++ [(name, l)] }

/-- The sink registry: type name to factory (factories are abstracted by an
identifier; an instantiated sink is its factory identifier applied to the
directive, i.e. the pair of both). -/
abbrev SinkRegistry := List (List Char × Nat)

/-- A sink instance: which factory made it, from which directive. -/
abbrev SinkInstance := Nat × sink_config

/-- `detail::sink_functions::make_sink`: look the type up in the sink
registry; a missing type is the fatal error naming the requested type. -/
def make_sink (reg : SinkRegistry) (config : sink_config) :
    Except (List Char) SinkInstance :=
  match reg.lookup config.type with
  | none => .error (str "Cannot create sink of type '" ++ config.type ++ str "'")
  | some f => .ok (f, config)

/-- The sink phase of `configuration::configure()`: instantiate each sink
directive in order through `make_sink`, collecting a name-to-sink mapping;
the first failure aborts the phase, leaving the sinks already instantiated
in place. -/
def configureSinks (reg : SinkRegistry) :
    List (List Char × sink_config) →
    List (List Char × SinkInstance) × Option (List Char)
  | [] => ([], none)
  | (n, c) :: rest =>
      match make_sink reg c with
      | .error e => ([], some e)
      | .ok s =>
          let r := configureSinks reg rest
          ((n, s) :: r.1, r.2)

/-- A constructed logger: its resolved sink instances, its severity level,
and its directive. -/
structure LoggerInstance where
  sinks : List SinkInstance
  level : LogLevel
  config : logger_config
deriving DecidableEq

/-- The sink-name resolution loop of `make_logger`: look each declared sink
name up in the constructed name-to-sink mapping, in declaration order; a
missing name is the fatal error naming both the logger and the sink. -/
def resolveSinks (name : List Char) (sinks : List (List Char × SinkInstance)) :
    List (List Char) → Except (List Char) (List SinkInstance)
  | [] => .ok []
  | n :: rest =>
      match sinks.lookup n with
      | none => .error (str "Trying to construct logger '" ++ name ++
          str "', but cannot find sink '" ++ n ++ str "'")
      | some s =>
          match resolveSinks name sinks rest with
          | .error e => .error e
          | .ok ls => .ok (s :: ls)

/-- `detail::logger_functions::make_logger` without the per-logger pattern
and error-handler overrides: resolve every declared sink name against the
constructed sinks, then set the severity via `find_log_level`. -/
def make_logger (name : List Char) (config : logger_config)
    (sinks : List (List Char × SinkInstance)) :
    Except (List Char) LoggerInstance :=
  match resolveSinks name sinks config.sinks with
  | .error e => .error e
  | .ok ls => .ok { sinks := ls, level := find_log_level config.threshold ItemMap.length,
                    config := config }

/-- The logger phase of `configure()`. -/
def configureLoggers (sinks : List (List Char × SinkInstance)) :
    List (List Char × logger_config) →
    List (List Char × LoggerInstance) × Option (List Char)
  | [] => ([], none)
  | (n, c) :: rest =>
      match make_logger n c sinks with
      | .error e => ([], some e)
      | .ok l =>
          let r := configureLoggers sinks rest
          ((n, l) :: r.1, r.2)

/-- `configuration::configure()`: globals first (unknown global names are
silently skipped, which the model reflects by the phase never failing),
then sinks, then loggers; a failing phase aborts the remaining ones but
does not roll back what earlier phases instantiated. -/
def Configuration.configure (c : Configuration) (reg : SinkRegistry) :
    List (List Char × SinkInstance) × List (List Char × LoggerInstance) ×
      Option (List Char) :=
  let sinkRes := configureSinks reg c.m_sinks
  match sinkRes.2 with
  | some e => (sinkRes.1, [], some e)
  | none =>
      let logRes := configureLoggers sinkRes.1 c.m_loggers
      (sinkRes.1, logRes.1, logRes.2)

/-! ## configuration::create -/

/-- One line of `configuration::create(std::istream&)`: ignore lines not
starting with `spdlog.` and lines without a `=`; split the key on `.`;
2 segments is a global directive named by the last segment, 3 segments a
logger or sink directive named by the last segment; anything else is the
fatal cannot-understand error. -/
def lineStep (cfg : Configuration) (line : List Char) :
    Except (List Char) Configuration :=
  if ¬ (str "spdlog.").isPrefixOf line then .ok cfg
  else
    let key_value := tokenize line ['='] 1
    if key_value.length ≠ 2 then .ok cfg
    else
      let key_elements := tokenize (key_value.headD []) ['.']
      if key_elements.length = 2 then
        match global_config.ofLine (key_value.getLastD []) with
        | .error e => .error e
        | .ok g => .ok (cfg.add_global (key_elements.getLastD []) g)
      else if key_elements.length = 3 then
        let type := key_elements.getD 1 []
        let name := key_elements.getD 2 []
        if type = str "logger" then
          match logger_config.ofLine (key_value.getLastD []) with
          | .error e => .error e
          | .ok l => .ok (cfg.add_logger name l)
        else if type = str "sink" then
          match sink_config.ofLine (key_value.getLastD []) with
          | .error e => .error e
          | .ok s => .ok (cfg.add_sink name s)
        else
          .error (str "Cannot understand this configuration string: " ++ line)
      else
        .error (str "Cannot understand this configuration string: " ++ line)

/-- `configuration::create(std::istream&)`: fold `lineStep` over the lines;
a failing line aborts the whole parse. -/
def create (lines : List (List Char)) : Except (List Char) Configuration :=
  lines.foldlM lineStep Configuration.empty

/-! ## Shared helper lemmas -/

theorem lookup_append_none {β : Type} (l : List (List Char × β)) (k : List Char)
    (v : β) (h : l.lookup k = none) : (l ++ [(k, v)]).lookup k = some v := by
  induction l with
  | nil => simp [List.lookup]
  | cons p rest ih =>
    obtain ⟨pk, pv⟩ := p
    by_cases hk : k = pk
    · subst hk
      simp [List.lookup] at h
    · have hb : (k == pk) = false := beq_eq_false_iff_ne.mpr hk
      simp only [List.cons_append, List.lookup, hb] at h ⊢
      exact ih h

/-! ## Claim theorems -/

/-- C9 counterexample: adding a second global directive under an
already-used name does not overwrite — the first addition survives, so "the
later addition wins" fails at this input. -/
theorem add_c9_counterexample :
    ((Configuration.empty.add_global (str "g") ⟨str "a", []⟩).add_global (str "g")
        ⟨str "b", []⟩).m_globals.lookup (str "g") = some ⟨str "a", []⟩ ∧
    (⟨str "a", []⟩ : global_config) ≠ ⟨str "b", []⟩ := by
  constructor
  · rfl
  · intro h
    cases h

/-- C9 (amended): `add_global`, `add_sink` and `add_logger` use
`std::map::emplace`, so a name already present keeps its stored directive
(the earlier addition wins) and the call leaves the configuration
unchanged; a fresh name is inserted and found afterwards. -/
theorem add_c9_emplace (c : Configuration) (name : List Char) :
    (∀ g : global_config, (c.m_globals.lookup name).isSome →
      c.add_global name g = c) ∧
    (∀ g : global_config, c.m_globals.lookup name = none →
      (c.add_global name g).m_globals.lookup name = some g) ∧
    (∀ s : sink_config, (c.m_sinks.lookup name).isSome →
      c.add_sink name s = c) ∧
    (∀ s : sink_config, c.m_sinks.lookup name = none →
      (c.add_sink name s).m_sinks.lookup name = some s) ∧
    (∀ l : logger_config, (c.m_loggers.lookup name).isSome →
      c.add_logger name l = c) ∧
    (∀ l : logger_config, c.m_loggers.lookup name = none →
      (c.add_logger name l).m_loggers.lookup name = some l) := by
  refine ⟨?_, ?_, ?_, ?_, ?_, ?_⟩
  · intro g h
    simp [Configuration.add_global, h]
  · intro g h
    simp only [Configuration.add_global, h, Option.isSome_none, Bool.false_eq_true,
      if_false]
    exact lookup_append_none _ _ _ h
  · intro s h
    simp [Configuration.add_sink, h]
  · intro s h
    simp only [Configuration.add_sink, h, Option.isSome_none, Bool.false_eq_true,
      if_false]
    exact lookup_append_none _ _ _ h
  · intro l h
    simp [Configuration.add_logger, h]
  · intro l h
    simp only [Configuration.add_logger, h, Option.isSome_none, Bool.false_eq_true,
      if_false]
    exact lookup_append_none _ _ _ h

/-- C9 witness: the amended behavior at concrete inputs — a duplicate
`add_sink` is a no-op, and a fresh `add_sink` is found afterwards. -/
theorem add_c9_emplace_witness :
    ((((Configuration.mk [] [(str "s", ⟨str "t1", []⟩)] []).m_sinks.lookup
        (str "s")).isSome = true) ∧
      (Configuration.mk [] [(str "s", ⟨str "t1", []⟩)] []).add_sink (str "s")
        ⟨str "t2", []⟩ = Configuration.mk [] [(str "s", ⟨str "t1", []⟩)] []) ∧
    ((Configuration.empty.m_sinks.lookup (str "s") = none) ∧
      (Configuration.empty.add_sink (str "s") ⟨str "t2", []⟩).m_sinks.lookup
        (str "s") = some ⟨str "t2", []⟩) :=
  ⟨⟨rfl, (add_c9_emplace (Configuration.mk [] [(str "s", ⟨str "t1", []⟩)] [])
      (str "s")).2.2.1 ⟨str "t2", []⟩ rfl⟩,
   ⟨rfl, (add_c9_emplace Configuration.empty (str "s")).2.2.2.1 ⟨str "t2", []⟩ rfl⟩⟩

/-- C10: `get_attribute_default` returns the supplied default on every
failure of the underlying required accessor — a missing attribute, but also
a present attribute whose value fails the boolean or numeric conversion —
as shown both in general and at concrete inputs where the attribute is
present with an unconvertible value. -/
theorem get_attribute_default_c10 :
    (∀ (name : List Char) (attributes : AttrMap) (dflt : Bool) (e : List Char),
      get_attribute_bool name attributes = .error e →
      get_attribute_default_bool name attributes dflt = dflt) ∧
    (∀ (name : List Char) (attributes : AttrMap) (dflt : Int) (e : List Char),
      get_attribute_int name attributes = .error e →
      get_attribute_default_int name attributes dflt = dflt) ∧
    (∀ (name : List Char) (attributes : AttrMap) (dflt : List Char) (e : List Char),
      get_attribute_string name attributes = .error e →
      get_attribute_default_string name attributes dflt = dflt) ∧
    ((List.lookup (str "flag") [(str "flag", str "maybe")]).isSome = true ∧
      get_attribute_default_bool (str "flag") [(str "flag", str "maybe")] true = true ∧
      get_attribute_default_bool (str "flag") [(str "flag", str "maybe")] false = false) ∧
    ((List.lookup (str "n") [(str "n", str "abc")]).isSome = true ∧
      get_attribute_default_int (str "n") [(str "n", str "abc")] 7 = 7) := by
  refine ⟨?_, ?_, ?_, ⟨rfl, rfl, rfl⟩, ⟨rfl, rfl⟩⟩
  · intro name attributes dflt e h
    simp [get_attribute_default_bool, h]
  · intro name attributes dflt e h
    simp [get_attribute_default_int, h]
  · intro name attributes dflt e h
    simp [get_attribute_default_string, h]

/-- C10 witness: the general default-on-failure clauses applied at a
concrete attribute map where the attribute is present but unconvertible. -/
theorem get_attribute_default_c10_witness :
    (get_attribute_bool (str "flag") [(str "flag", str "maybe")] =
      .error (str "Attribute flag is not a valid boolean") ∧
      get_attribute_default_bool (str "flag") [(str "flag", str "maybe")] true = true) ∧
    (get_attribute_int (str "n") [(str "n", str "abc")] =
      .error (str "Attribute n is not a valid integer") ∧
      get_attribute_default_int (str "n") [(str "n", str "abc")] 7 = 7) :=
  ⟨⟨rfl, get_attribute_default_c10.1 (str "flag") [(str "flag", str "maybe")] true _ rfl⟩,
   ⟨rfl, get_attribute_default_c10.2.1 (str "n") [(str "n", str "abc")] 7 _ rfl⟩⟩

/-- C4 counterexample: with a configured period shorter than a day
(`rotation_period_hours = 1`), constructing the deadline at 23:00 for a
00:00 target yields 01:00 of the same day — a deadline in the past, so
"never a time in the past" fails at this input. -/
theorem next_rotation_tp_c4_counterexample :
    next_rotation_tp 0 0 1 0 82800 = 3600 ∧
    ¬ (82800 < next_rotation_tp 0 0 1 0 82800) := by
  constructor
  · rfl
  · decide

/-- C4 (amended): the deadline is today's `rotation_hour:rotation_minute`
target when that is still in the future, and otherwise that target advanced
by one configured period; the result is strictly in the future whenever the
configured period is at least 24 hours (in particular the default 24h/0m) —
with a shorter period the computed deadline can lie in the past. -/
theorem next_rotation_tp_c4_future (rh rm ph pm now : Nat)
    (hrh : rh ≤ 23) (hrm : rm ≤ 59)
    (hper : 86400 ≤ ph * 3600 + pm * 60) :
    (next_rotation_tp rh rm ph pm now =
      if now < (now / 86400) * 86400 + rh * 3600 + rm * 60 then
        (now / 86400) * 86400 + rh * 3600 + rm * 60
      else (now / 86400) * 86400 + rh * 3600 + rm * 60 + (ph * 3600 + pm * 60)) ∧
    now < next_rotation_tp rh rm ph pm now := by
  constructor
  · unfold next_rotation_tp
    by_cases h : now < (now / 86400) * 86400 + rh * 3600 + rm * 60
    · rw [if_pos h, if_pos h]
    · rw [if_neg h, if_neg h]
      omega
  · unfold next_rotation_tp
    by_cases h : now < (now / 86400) * 86400 + rh * 3600 + rm * 60
    · rw [if_pos h]
      exact h
    · rw [if_neg h]
      have hmod := Nat.div_add_mod now 86400
      have hlt : now % 86400 < 86400 := Nat.mod_lt _ (by omega)
      omega

/-- C4 witness: the amended deadline computation at a concrete moment two
days and 50000 seconds into the epoch, with the 03:30 target already past
and the default 24h period. -/
theorem next_rotation_tp_c4_future_witness :
    (3 ≤ 23 ∧ 30 ≤ 59 ∧ 86400 ≤ 24 * 3600 + 0 * 60) ∧
    222800 < next_rotation_tp 3 30 24 0 222800 :=
  ⟨⟨by decide, by decide, by decide⟩,
   (next_rotation_tp_c4_future 3 30 24 0 222800 (by decide) (by decide)
     (by decide)).2⟩

/-- C5: the severity-name lookup maps each of the seven recognized names
(matched case-sensitively and exactly) to its level, and every string
outside that fixed set resolves to `info`. -/
theorem find_log_level_c5 :
    (∀ p ∈ ItemMap, find_log_level p.1 ItemMap.length = p.2) ∧
    (∀ key : List Char, key ∉ ItemMap.map Prod.fst →
      find_log_level key ItemMap.length = .info) := by
  constructor
  · decide
  · intro key hk
    simp only [ItemMap, List.map_cons, List.map_nil, List.mem_cons,
      List.not_mem_nil, or_false, not_or] at hk
    obtain ⟨h1, h2, h3, h4, h5, h6, h7⟩ := hk
    show find_log_level key 7 = LogLevel.info
    rw [show find_log_level key 7 =
        if str "OFF" = key then LogLevel.off else find_log_level key 6 from rfl,
      if_neg (fun h => h7 h.symm)]
    rw [show find_log_level key 6 =
        if str "FATAL" = key then LogLevel.critical else find_log_level key 5 from rfl,
      if_neg (fun h => h6 h.symm)]
    rw [show find_log_level key 5 =
        if str "ERROR" = key then LogLevel.err else find_log_level key 4 from rfl,
      if_neg (fun h => h5 h.symm)]
    rw [show find_log_level key 4 =
        if str "WARNINGS" = key then LogLevel.warn else find_log_level key 3 from rfl,
      if_neg (fun h => h4 h.symm)]
    rw [show find_log_level key 3 =
        if str "INFO" = key then LogLevel.info else find_log_level key 2 from rfl,
      if_neg (fun h => h3 h.symm)]
    rw [show find_log_level key 2 =
        if str "DEBUG" = key then LogLevel.debug else find_log_level key 1 from rfl,
      if_neg (fun h => h2 h.symm)]
    rw [show find_log_level key 1 =
        if str "TRACE" = key then LogLevel.trace else find_log_level key 0 from rfl,
      if_neg (fun h => h1 h.symm)]
    rfl

/-- C5 witness: the silent-fallback clause applied at the unrecognized name
`BOGUS`, which resolves to `info`. -/
theorem find_log_level_c5_witness :
    (str "BOGUS") ∉ ItemMap.map Prod.fst ∧
    find_log_level (str "BOGUS") ItemMap.length = .info :=
  ⟨by decide, find_log_level_c5.2 (str "BOGUS") (by decide)⟩

/-- C7 counterexample: an unknown sink type makes `configure()` fail with
the error naming only the requested type — the sink's declared name
(`mysink`) does not occur in the message, refuting "names both the
requested type and the sink's declared name". -/
theorem make_sink_c7_counterexample :
    (Configuration.mk [] [(str "mysink", ⟨str "bogus", []⟩)] []).configure [] =
      ([], [], some (str "Cannot create sink of type 'bogus'")) ∧
    ¬ (str "mysink" <:+: str "Cannot create sink of type 'bogus'") := by
  constructor
  · rfl
  · decide

/-- C7 (amended): when a sink directive's type is absent from the registry,
`configure()` fails with the fatal error naming the requested type (the
message embeds the type string but not the declared sink name in general);
the loggers phase never runs, and the sinks instantiated before the failing
directive are kept, not rolled back. -/
theorem configure_c7_unknown_type (reg : SinkRegistry) (cfg : Configuration)
    (pre : List (List Char × sink_config)) (n : List Char) (c : sink_config)
    (post : List (List Char × sink_config))
    (hcfg : cfg.m_sinks = pre ++ (n, c) :: post)
    (hpre : ∀ p ∈ pre, (reg.lookup p.2.type).isSome = true)
    (hmiss : reg.lookup c.type = none) :
    ∃ built, cfg.configure reg =
      (built, [], some (str "Cannot create sink of type '" ++ c.type ++ str "'")) ∧
      built.map Prod.fst = pre.map Prod.fst := by
  have key : ∀ pre2, (∀ p ∈ pre2, (reg.lookup p.2.type).isSome = true) →
      ∃ built, configureSinks reg (pre2 ++ (n, c) :: post) =
        (built, some (str "Cannot create sink of type '" ++ c.type ++ str "'")) ∧
        built.map Prod.fst = pre2.map Prod.fst := by
    intro pre2 hpre2
    induction pre2 with
    | nil =>
      refine ⟨[], ?_, rfl⟩
      simp only [List.nil_append, configureSinks, make_sink, hmiss]
    | cons p rest ih =>
      obtain ⟨pn, pc⟩ := p
      have hs := hpre2 (pn, pc) (by simp)
      obtain ⟨f, hf⟩ := Option.isSome_iff_exists.mp hs
      obtain ⟨built, hb, hnames⟩ := ih (fun q hq => hpre2 q (by simp [hq]))
      refine ⟨(pn, (f, pc)) :: built, ?_, ?_⟩
      · simp only [List.cons_append, configureSinks, make_sink, hf]
        rw [List.append_eq, hb]
      · simp [hnames]
  obtain ⟨built, hb, hnames⟩ := key pre hpre
  refine ⟨built, ?_, hnames⟩
  unfold Configuration.configure
  rw [hcfg, hb]

/-- C7 witness: the amended behavior at a registry knowing only `known`,
with one sink instantiated before the failing directive and one after. -/
theorem configure_c7_unknown_type_witness :
    ((Configuration.mk []
        [(str "ok1", ⟨str "known", []⟩), (str "bad", ⟨str "bogus", []⟩),
         (str "ok2", ⟨str "known", []⟩)] []).m_sinks =
      [(str "ok1", ⟨str "known", []⟩)] ++ (str "bad", ⟨str "bogus", []⟩) ::
        [(str "ok2", ⟨str "known", []⟩)] ∧
      List.lookup (str "bogus") [(str "known", 0)] = none) ∧
    ∃ built,
      (Configuration.mk []
        [(str "ok1", ⟨str "known", []⟩), (str "bad", ⟨str "bogus", []⟩),
         (str "ok2", ⟨str "known", []⟩)] []).configure [(str "known", 0)] =
        (built, [], some (str "Cannot create sink of type '" ++ str "bogus" ++
          str "'")) ∧
      built.map Prod.fst = [(str "ok1", (⟨str "known", []⟩ : sink_config))].map
        Prod.fst :=
  ⟨⟨rfl, rfl⟩,
   configure_c7_unknown_type [(str "known", 0)] _
     [(str "ok1", ⟨str "known", []⟩)] (str "bad") ⟨str "bogus", []⟩
     [(str "ok2", ⟨str "known", []⟩)] rfl
     (by intro p hp; simp at hp; rw [hp]; rfl) rfl⟩

/-- C1: during a size-triggered generation-shift rotation (active file
present), the pending rename list is truncated to at most `max_files`
entries; every source beyond that bound exists on disk, so each deletion
succeeds and the rotation never fails in the model (deletion failure would
be fatal); the kept pairs, applied in reverse order with the
missing-source-skips-silently guard, shift the first `keepCount`
generations up by one and touch nothing above; and generation 0 is reopened
truncated to empty. -/
theorem rotate_c1_generation_shift (d : Disk) (m : Nat)
    (h0 : d.file_exists 0 = true) :
    ((renameList d m).take (keepCount d m)).length ≤ m ∧
    (∀ p ∈ (renameList d m).drop (keepCount d m), d.file_exists p.1 = true) ∧
    ∃ d', rotate d m = some d' ∧
      d'.get 0 = some [] ∧
      (∀ j, 1 ≤ j → j ≤ keepCount d m → d'.get j = d.get (j - 1)) ∧
      (∀ n, keepCount d m < n → d'.get n = d.get n) := by
  refine ⟨?_, ?_, rotate_char d m h0⟩
  · simp only [List.length_take, keepCount]
    omega
  · obtain ⟨hshape, hex⟩ := buildChain_shape d m (m + 1) 1 (by omega)
    have hfiles : renameList d m =
        (List.range' 0 ((buildChain d m 1).length + 1)).map (fun j => (j, j + 1)) := by
      unfold renameList
      rw [List.range'_succ, List.map_cons, ← hshape]
    intro p hp
    have hmem : p ∈ renameList d m := List.mem_of_mem_drop hp
    rw [hfiles] at hmem
    obtain ⟨j, hj, rfl⟩ := List.mem_map.mp hmem
    have hj2 := List.mem_range'_1.mp hj
    rcases Nat.eq_zero_or_pos j with rfl | hjpos
    · exact h0
    · exact (hex j hjpos (by omega)).1

/-- C1 witness: the characterization applied at a two-generation disk with
retention bound 1: the surplus generation is deleted, the active file moves
to generation 1 and generation 0 reopens empty. -/
theorem rotate_c1_generation_shift_witness :
    Disk.file_exists [some [7], some [8]] 0 = true ∧
    ∃ d', rotate [some [7], some [8]] 1 = some d' ∧
      Disk.get d' 0 = some [] ∧
      (∀ j, 1 ≤ j → j ≤ keepCount [some [7], some [8]] 1 → Disk.get d' j =
        Disk.get [some [7], some [8]] (j - 1)) ∧
      (∀ n, keepCount [some [7], some [8]] 1 < n → Disk.get d' n =
        Disk.get [some [7], some [8]] n) :=
  ⟨by decide, (rotate_c1_generation_shift [some [7], some [8]] 1 (by decide)).2.2⟩

/-- C3: after a size-triggered rotation of a well-formed disk (active file
present, no generation beyond `max_files`), the active file exists and
still no generation beyond `max_files` exists; and in the concrete
retention scenario — `max_files = 3`, five size-triggered rotations from an
active file holding message 0 — the result has exactly the active file plus
3 numbered backups (generations 0–3) and the two oldest messages 0 and 1
have been discarded from every surviving file. -/
theorem rotate_c3_retention :
    (∀ (d : Disk) (m : Nat) (d' : Disk),
      d.file_exists 0 = true →
      (∀ n, m < n → d.file_exists n = false) →
      rotate d m = some d' →
      (d'.file_exists 0 = true ∧ ∀ n, m < n → d'.file_exists n = false)) ∧
    rotateScenario = some [some [5], some [4], some [3], some [2]] ∧
    (∀ n, Disk.file_exists [some [5], some [4], some [3], some [2]] n = true ↔
      n < 4) ∧
    (∀ n, 0 ∉ (Disk.get [some [5], some [4], some [3], some [2]] n).getD [] ∧
          1 ∉ (Disk.get [some [5], some [4], some [3], some [2]] n).getD []) := by
  refine ⟨?_, by decide, ?_, ?_⟩
  · intro d m d' h0 habove hrot
    obtain ⟨d'', heq, hg0, _, hhigh⟩ := rotate_char d m h0
    rw [heq] at hrot
    cases hrot
    constructor
    · unfold Disk.file_exists
      rw [hg0]
      rfl
    · intro n hn
      have hkeep : keepCount d m ≤ m := Nat.min_le_right _ _
      unfold Disk.file_exists
      rw [hhigh n (by omega)]
      exact habove n hn
  · intro n
    match n with
    | 0 => decide
    | 1 => decide
    | 2 => decide
    | 3 => decide
    | (k + 4) =>
      constructor
      · intro h
        unfold Disk.file_exists Disk.get at h
        rw [List.getD_eq_default] at h
        · cases h
        · simp
      · intro h
        omega
  · intro n
    match n with
    | 0 => exact ⟨by decide, by decide⟩
    | 1 => exact ⟨by decide, by decide⟩
    | 2 => exact ⟨by decide, by decide⟩
    | 3 => exact ⟨by decide, by decide⟩
    | (k + 4) =>
      unfold Disk.get
      rw [List.getD_eq_default]
      · exact ⟨by decide, by decide⟩
      · simp

/-- C3 witness: the retention invariant applied at a concrete one-backup
disk with `max_files = 1`: the rotated disk keeps its active file and grows
no generation beyond the bound. -/
theorem rotate_c3_retention_witness :
    (Disk.file_exists [some [1], some [2]] 0 = true ∧
      rotate [some [1], some [2]] 1 = some [some [], some [1]]) ∧
    (Disk.file_exists [some [], some [1]] 0 = true ∧
      ∀ n, 1 < n → Disk.file_exists [some [], some [1]] n = false) :=
  ⟨⟨by decide, by decide⟩,
   rotate_c3_retention.1 [some [1], some [2]] 1 [some [], some [1]] (by decide)
     (by
       intro n hn
       unfold Disk.file_exists Disk.get
       rw [List.getD_eq_default]
       · rfl
       · simp
         omega)
     (by decide)⟩

/-- C8: the line classifier of `create` ignores lines without the reserved
`spdlog.` prefix; a 2-dot-segment key declares a global directive named by
the 2nd segment, a 3-segment key with `logger` or `sink` as 2nd segment
declares a logger or sink named by the 3rd segment; any other segment
count, or an unrecognized 2nd segment, raises the fatal cannot-understand
error, and a failing line aborts the whole parse instead of being
skipped. -/
theorem create_c8 :
    (∀ (cfg : Configuration) (l : List Char),
      (str "spdlog.").isPrefixOf l = false → lineStep cfg l = .ok cfg) ∧
    lineStep Configuration.empty (str "spdlog.set_pattern=%v") =
      .ok (Configuration.empty.add_global (str "set_pattern") ⟨str "%v", []⟩) ∧
    lineStep Configuration.empty (str "spdlog.sink.s1=null_sink_st") =
      .ok (Configuration.empty.add_sink (str "s1") ⟨str "null_sink_st", []⟩) ∧
    lineStep Configuration.empty (str "spdlog.logger.lg=INFO,[sinks=s1]") =
      .ok (Configuration.empty.add_logger (str "lg")
        ⟨str "INFO", [str "s1"], [(str "sinks", str "s1")]⟩) ∧
    lineStep Configuration.empty (str "spdlog.widget.x=1") =
      .error (str "Cannot understand this configuration string: spdlog.widget.x=1") ∧
    lineStep Configuration.empty (str "spdlog.a.b.c.d=1") =
      .error (str "Cannot understand this configuration string: spdlog.a.b.c.d=1") ∧
    (∀ (bad : List Char) (post : List (List Char)) (e : List Char),
      lineStep Configuration.empty bad = .error e →
      create (bad :: post) = .error e) := by
  refine ⟨?_, rfl, rfl, rfl, rfl, rfl, ?_⟩
  · intro cfg l h
    simp [lineStep, h]
  · intro bad post e h
    unfold create
    rw [List.foldlM_cons, h]
    rfl

/-- C8 witness: the ignore rule applied at a prefix-free line, and the
abort rule applied at a bad line followed by a well-formed one. -/
theorem create_c8_witness :
    ((str "spdlog.").isPrefixOf (str "nonsense line") = false ∧
      lineStep Configuration.empty (str "nonsense line") =
        .ok Configuration.empty) ∧
    (lineStep Configuration.empty (str "spdlog.widget.x=1") =
        .error (str "Cannot understand this configuration string: spdlog.widget.x=1") ∧
      create [str "spdlog.widget.x=1", str "spdlog.set_pattern=%v"] =
        .error (str "Cannot understand this configuration string: spdlog.widget.x=1")) :=
  ⟨⟨rfl, create_c8.1 Configuration.empty (str "nonsense line") rfl⟩,
   ⟨rfl, create_c8.2.2.2.2.2.2 (str "spdlog.widget.x=1")
     [str "spdlog.set_pattern=%v"] _ rfl⟩⟩

/-- The prefix of the CSV input up to the first field-separating comma,
when free of commas and quotes, is consumed into the pending token and the
split happens exactly there (with `max = 1` the loop then stops, leaving
the remainder unread). -/
theorem csvLoop_clean_value (rest : List Char) :
    ∀ (v tok : List Char) (acc : List (List Char)),
      (∀ c ∈ v, c ≠ ',' ∧ c ≠ '"') →
      csvLoop 1 (v ++ ',' :: rest) false tok 0 acc =
        .ok (acc ++ [tok ++ v], [], rest, 1) := by
  intro v
  induction v with
  | nil =>
    intro tok acc _
    simp only [List.nil_append, List.append_nil]
    rw [csvLoop_cons, if_neg (by decide : ¬ (0 ≥ 1)),
      if_neg (by decide : ¬ (',' = '"')), if_pos rfl,
      if_neg (by decide : ¬ (false = true))]
    rw [csvLoop_step, if_pos (by decide : 0 + 1 ≥ 1)]
  | cons c v ih =>
    intro tok acc hv
    have hc := hv c (by simp)
    simp only [List.cons_append]
    rw [csvLoop_cons, if_neg (by decide : ¬ (0 ≥ 1)), if_neg hc.2, if_neg hc.1]
    rw [ih (tok ++ [c]) acc (fun x hx => hv x (by simp [hx]))]
    simp

/-- C6: `config_line::parse` fails on the empty input with the empty-line
error and, whenever the CSV split would produce more than two fields, with
the invalid-line error; the input splits at the first field-separating
comma only (a quote-free comma-free value is split there, and a comma
inside a double-quoted section is literal); the parsed value is exactly
the text before that first comma; and the section between the first `[`
and the last `]` of the second field is parsed as the comma-separated
attribute list. -/
theorem config_line_parse_c6 :
    config_line_parse [] = .error (str "Empty config line found") ∧
    (∀ (s : List Char) (tokens : List (List Char)),
      parse_csv s 1 = .ok tokens → 2 < tokens.length →
      config_line_parse s = .error (str "Invalid config line found")) ∧
    (∀ (v rest : List Char), (∀ c ∈ v, c ≠ ',' ∧ c ≠ '"') → rest ≠ [] →
      parse_csv (v ++ ',' :: rest) 1 = .ok [v, rest]) ∧
    (∀ (v rest : List Char) (cl : ConfigLine),
      (∀ c ∈ v, c ≠ ',' ∧ c ≠ '"') → rest ≠ [] →
      config_line_parse (v ++ ',' :: rest) = .ok cl → cl.value = v) ∧
    config_line_parse (str "\"a,b\",[x=1]") =
      .ok { value := str "a,b", attributes := [(str "x", str "1")] } ∧
    (config_line_parse (str "INFO,[sinks=a:b,pattern=%v]")).map
      (fun cl => (cl.value, cl.attributes.lookup (str "sinks"),
        cl.attributes.lookup (str "pattern"))) =
      .ok (str "INFO", some (str "a:b"), some (str "%v")) := by
  have hsplit : ∀ (v rest : List Char), (∀ c ∈ v, c ≠ ',' ∧ c ≠ '"') →
      rest ≠ [] → parse_csv (v ++ ',' :: rest) 1 = .ok [v, rest] := by
    intro v rest hv hrest
    unfold parse_csv
    rw [csvLoop_clean_value rest v [] [] hv]
    simp only [List.nil_append]
    rw [if_neg (by simp : ¬ (([] : List Char) ≠ []))]
    rw [if_pos ⟨hrest, by decide⟩]
    rfl
  have hfold : ∀ (l : List (List Char)) (init r : ConfigLine),
      l.foldlM (fun (cl : ConfigLine) at_ =>
        let kv := tokenize at_ ['=']
        if kv.length ≠ 2 then
          Except.error (str "Invalid attribute definition found: " ++ at_)
        else
          Except.ok { cl with
            attributes := mapInsert cl.attributes (kv.headD []) (kv.getLastD []) })
        init = .ok r → r.value = init.value := by
    intro l
    induction l with
    | nil =>
      intro init r h
      cases h
      rfl
    | cons a l ih =>
      intro init r h
      rw [List.foldlM_cons] at h
      by_cases hlen : (tokenize a ['=']).length ≠ 2
      · rw [if_pos hlen] at h
        cases h
      · rw [if_neg hlen] at h
        exact ih { value := init.value,
                   attributes := mapInsert init.attributes
                     ((tokenize a ['=']).headD [])
                     ((tokenize a ['=']).getLastD []) } r h
  have hcore : ∀ (tokens : List (List Char)) (cl : ConfigLine),
      config_line_core tokens = .ok cl → cl.value = tokens.headD [] := by
    intro tokens cl h
    unfold config_line_core at h
    split at h
    · cases h
    · split at h
      · cases h
      · split at h
        · simp only at h
          split at h
          · cases h
          · exact hfold _ _ cl h
        · cases h
          rfl
  refine ⟨rfl, ?_, hsplit, ?_, rfl, rfl⟩
  · intro s tokens h hlen
    unfold config_line_parse
    rw [h]
    show config_line_core tokens = Except.error (str "Invalid config line found")
    unfold config_line_core
    rw [if_neg (by omega : ¬ tokens.length = 0), if_pos (by omega : tokens.length > 2)]
  · intro v rest cl hv hrest hparse
    unfold config_line_parse at hparse
    rw [hsplit v rest hv hrest] at hparse
    have h2 : config_line_core [v, rest] = .ok cl := hparse
    simpa using hcore [v, rest] cl h2

/-- C6 witness: the split and value clauses applied at the concrete line
`ab,[x=1]`. -/
theorem config_line_parse_c6_witness :
    ((∀ c ∈ str "ab", c ≠ ',' ∧ c ≠ '"') ∧ (str "[x=1]") ≠ [] ∧
      parse_csv (str "ab" ++ ',' :: str "[x=1]") 1 =
        .ok [str "ab", str "[x=1]"]) ∧
    (config_line_parse (str "ab" ++ ',' :: str "[x=1]") =
        .ok { value := str "ab", attributes := [(str "x", str "1")] } ∧
      ({ value := str "ab", attributes := [(str "x", str "1")] } :
        ConfigLine).value = str "ab") :=
  ⟨⟨by decide, by decide,
    config_line_parse_c6.2.2.1 (str "ab") (str "[x=1]") (by decide) (by decide)⟩,
   ⟨rfl, config_line_parse_c6.2.2.2.1 (str "ab") (str "[x=1]") _ (by decide)
     (by decide) rfl⟩⟩

theorem Disk.get_writeMsg (d : Disk) (msg : Nat) (n : Nat) :
    (d.writeMsg msg).get n =
      if n = 0 then some ((d.get 0).getD [] ++ [msg]) else d.get n := by
  unfold writeMsg
  rw [get_setSlot]

theorem FileSystem.get_openAppend (fs : FileSystem) (b b' : List Char) (n : Nat) :
    ((fs.openAppend b).getDisk b').get n =
      if b' = b ∧ n = 0 ∧ (fs.getDisk b).file_exists 0 = false then some []
      else (fs.getDisk b').get n := by
  unfold openAppend
  by_cases hex : (fs.getDisk b).file_exists 0
  · rw [if_pos hex]
    rw [if_neg (fun hand => by
      rw [hand.2.2] at hex
      cases hex)]
  · rw [if_neg hex]
    rw [FileSystem.getDisk_setDisk]
    by_cases hb : b' = b
    · rw [if_pos hb, Disk.get_setSlot]
      by_cases hn : n = 0
      · rw [if_pos hn, if_pos ⟨hb, hn, by simpa using hex⟩]
      · rw [if_neg hn, if_neg (fun hand => hn hand.2.1), hb]
    · rw [if_neg hb, if_neg (fun hand => hb hand.1)]

/-- C2: on an append of a message of formatted length `L`, the length is
first added to the running size; when the deadline has passed the
time-based rotation takes priority regardless of the accumulated size —
the base filename is recomputed, the deadline is recomputed, the size
resets to exactly `L`, no generation file anywhere is renamed or removed,
and the message lands in the generation-0 file of the recomputed base;
otherwise, when the accumulated size exceeds `max_size`, the
generation-shift rotation runs on the current base and the size resets to
exactly `L`; otherwise the size keeps the accumulated value — and in every
surviving case the message is written to the currently open file. -/
theorem sink_it_c2_append (calcFn : Nat → List Char) (nextTp : Nat → Nat)
    (now msg L : Nat) (s : RotState) (fs : FileSystem) :
    (s.rotationTp ≤ now →
      ∃ s' fs', sink_it calcFn nextTp now msg L s fs = some (s', fs') ∧
        s'.currentBaseFilename = calcFn now ∧
        s'.rotationTp = nextTp now ∧
        s'.currentSize = L ∧
        (∀ (b : List Char) (n : Nat), 1 ≤ n →
          (fs'.getDisk b).get n = (fs.getDisk b).get n) ∧
        (fs'.getDisk (calcFn now)).get 0 =
          some (((fs.getDisk (calcFn now)).get 0).getD [] ++ [msg])) ∧
    (¬ s.rotationTp ≤ now → s.maxSize < s.currentSize + L →
      ((∃ d2, rotate (fs.getDisk s.currentBaseFilename) s.maxFiles = some d2 ∧
          sink_it calcFn nextTp now msg L s fs =
            some ({ s with currentSize := L },
              fs.setDisk s.currentBaseFilename (d2.writeMsg msg))) ∨
        (rotate (fs.getDisk s.currentBaseFilename) s.maxFiles = none ∧
          sink_it calcFn nextTp now msg L s fs = none))) ∧
    (¬ s.rotationTp ≤ now → ¬ s.maxSize < s.currentSize + L →
      sink_it calcFn nextTp now msg L s fs =
        some ({ s with currentSize := s.currentSize + L },
          fs.setDisk s.currentBaseFilename
            ((fs.getDisk s.currentBaseFilename).writeMsg msg))) := by
  refine ⟨?_, ?_, ?_⟩
  · intro h1
    refine ⟨{ s with
                currentBaseFilename := calcFn now,
                rotationTp := nextTp now,
                currentSize := L },
      (fs.openAppend (calcFn now)).setDisk (calcFn now)
        (((fs.openAppend (calcFn now)).getDisk (calcFn now)).writeMsg msg),
      ?_, rfl, rfl, rfl, ?_, ?_⟩
    · unfold sink_it
      rw [if_pos h1]
    · intro b n hn
      rw [FileSystem.getDisk_setDisk]
      by_cases hb : b = calcFn now
      · rw [if_pos hb, Disk.get_writeMsg, if_neg (by omega : ¬ (n = 0)),
          FileSystem.get_openAppend,
          if_neg (fun hand => by omega : ¬ (calcFn now = calcFn now ∧ n = 0 ∧
            (fs.getDisk (calcFn now)).file_exists 0 = false)), hb]
      · rw [if_neg hb, FileSystem.get_openAppend,
          if_neg (fun hand => hb hand.1)]
    · rw [FileSystem.getDisk_setDisk, if_pos rfl, Disk.get_writeMsg, if_pos rfl,
        FileSystem.get_openAppend]
      by_cases hex : (fs.getDisk (calcFn now)).file_exists 0
      · rw [if_neg (fun hand => by
          rw [hand.2.2] at hex
          cases hex)]
      · rw [if_pos ⟨rfl, rfl, by simpa using hex⟩]
        have hnone : (fs.getDisk (calcFn now)).get 0 = none := by
          unfold Disk.file_exists at hex
          simpa using hex
        rw [hnone]
        rfl
  · intro h1 h2
    cases hr : rotate (fs.getDisk s.currentBaseFilename) s.maxFiles with
    | none =>
      right
      refine ⟨rfl, ?_⟩
      unfold sink_it
      rw [if_neg h1, if_pos h2, hr]
    | some d2 =>
      left
      refine ⟨d2, rfl, ?_⟩
      unfold sink_it
      rw [if_neg h1, if_pos h2, hr]
  · intro h1 h2
    unfold sink_it
    rw [if_neg h1, if_neg h2]

/-- C2 witness: the deadline-passed branch applied at a concrete state
whose accumulated size also exceeds `max_size` — the time-based rotation
wins, the size resets to the message length and the message is written to
the recomputed base file. -/
theorem sink_it_c2_append_witness :
    (10 : Nat) ≤ 50 ∧
    ∃ s' fs',
      sink_it (fun _ => str "log-day2") (fun t => t + 86400) 50 9 5
        { baseFilename := str "log", currentBaseFilename := str "log-day1",
          maxSize := 3, maxFiles := 2, currentSize := 100, rotationTp := 10 }
        [(str "log-day1", [some [1]])] = some (s', fs') ∧
      s'.currentBaseFilename = str "log-day2" ∧
      s'.rotationTp = 50 + 86400 ∧
      s'.currentSize = 5 ∧
      (∀ (b : List Char) (n : Nat), 1 ≤ n →
        (fs'.getDisk b).get n =
          (FileSystem.getDisk [(str "log-day1", [some [1]])] b).get n) ∧
      (fs'.getDisk (str "log-day2")).get 0 =
        some (((FileSystem.getDisk [(str "log-day1", [some [1]])]
          (str "log-day2")).get 0).getD [] ++ [9]) :=
  ⟨by decide,
   (sink_it_c2_append (fun _ => str "log-day2") (fun t => t + 86400) 50 9 5
     { baseFilename := str "log", currentBaseFilename := str "log-day1",
       maxSize := 3, maxFiles := 2, currentSize := 100, rotationTp := 10 }
     [(str "log-day1", [some [1]])]).1 (by decide)⟩

end Spdlog
